import Mathlib

/-!
Shallow embedding of the wedge library's concurrent cache core
(safemap.go, urls.go, server.go) and proofs about the spec's claims.

Go values stored in the actor map (Go: interface\x7b\x7d) are modelled by
the inductive GoValue, covering the value kinds the code actually stores
(nil, string, int, bool).  The Go map is modelled as an association list
with the usual no-duplicate-key update discipline.  Machine integers
(time.Duration is int64) are modelled as Int with explicit wrap-around
where an overflow matters.  Panics are modelled with Except.
-/

namespace Wedge

/-- A Go interface value as stored in the safe map. -/
inductive GoValue where
  | nil
  | str (s : String)
  | int (n : Int)
  | bool (b : Bool)
deriving DecidableEq, Repr

/-- The map underlying safeMap (Go: map[interface\x7b\x7d]interface\x7b\x7d),
as an association list without duplicate keys. -/
abbrev GoMap := List (GoValue × GoValue)

/-- Go map assignment m[k] = v: overwrite the binding if present, else append. -/
def mapInsert : GoMap → GoValue → GoValue → GoMap
  | [], k, v => [(k, v)]
  | p :: rest, k, v => if p.1 = k then (k, v) :: rest else p :: mapInsert rest k v

/-- Go map lookup with ok flag: val, ok := m[k]. Returns none when absent. -/
def mapFind : GoMap → GoValue → Option GoValue
  | [], _ => none
  | p :: rest, k => if p.1 = k then some p.2 else mapFind rest k

/-- Go built-in delete(m, k): removes the binding if present, no-op otherwise. -/
def mapDelete : GoMap → GoValue → GoMap
  | [], _ => []
  | p :: rest, k => if p.1 = k then mapDelete rest k else p :: mapDelete rest k

/-- A Go panic, carrying the panic message. -/
structure GoPanic where
  msg : String
deriving DecidableEq, Repr

/-- The job codes of safemap.go (insert, remove, find, finish, do). -/
inductive JobType where
  | insertJob
  | removeJob
  | findJob
  | finishJob
  | doJob
deriving DecidableEq, Repr

/-- An updater function passed to Do: it receives the raw map and returns a
result together with the (possibly mutated) map; it may panic. -/
abbrev Updater := GoMap → Except GoPanic (GoValue × GoMap)

/-- The nil func stored in the updater field of non-Do jobs: calling it in Go
would be a nil-pointer panic; the worker never does so. -/
def nilUpdater : Updater := fun _ => .error ⟨"runtime error: nil updater"⟩

/-- One request record sent to the safeMap worker (the reply channel of the
Go struct is implicit: runJob returns the reply). -/
structure Job where
  jobType : JobType
  key : GoValue
  value : GoValue
  updater : Updater

/-- The reply envelope sent on the return channel (Go: returnData). -/
structure ReturnData where
  value : GoValue
  success : Bool
deriving DecidableEq, Repr

/-- Worker-owned state: the raw map, plus whether the job channel is still
open (Finish closes it). -/
structure SafeMapState where
  safe : GoMap
  isOpen : Bool
deriving Repr

/-- NewSafeMap: empty map, open job channel, worker running. -/
def NewSafeMap : SafeMapState := { safe := [], isOpen := true }

/-- One iteration of the worker loop of NewSafeMap: dequeue a job, execute
its case of the switch atomically against the map, emit the reply.  The do
case calls the caller-supplied updater with no recover, so a panic there
propagates out of the worker (Except.error).  The finish case closes the
job channel and still replies true. -/
def runJob (st : SafeMapState) (j : Job) : Except GoPanic (SafeMapState × ReturnData) :=
  match j.jobType with
  | .insertJob =>
      .ok ({ st with safe := mapInsert st.safe j.key j.value }, ⟨GoValue.nil, true⟩)
  | .removeJob =>
      .ok ({ st with safe := mapDelete st.safe j.key }, ⟨GoValue.nil, true⟩)
  | .findJob =>
      match mapFind st.safe j.key with
      | some v => .ok (st, ⟨v, true⟩)
      | none => .ok (st, ⟨GoValue.nil, false⟩)
  | .doJob =>
      match j.updater st.safe with
      | .ok (v, m2) => .ok ({ st with safe := m2 }, ⟨v, true⟩)
      | .error p => .error p
  | .finishJob =>
      .ok ({ st with isOpen := false }, ⟨GoValue.nil, true⟩)

/-- The panic raised by Go when sending on a closed channel. -/
def closedChannelPanic : GoPanic := ⟨"send on closed channel"⟩

/-- Caller side of an operation: send the job on the job channel and wait
for the reply.  Sending on the closed channel (after Finish) panics. -/
def sendJob (st : SafeMapState) (j : Job) : Except GoPanic (SafeMapState × ReturnData) :=
  if st.isOpen then runJob st j else .error closedChannelPanic

/-- m.Insert(key, value): returns the success flag of the reply. -/
def Insert (st : SafeMapState) (key value : GoValue) : Except GoPanic (SafeMapState × Bool) :=
  (sendJob st ⟨.insertJob, key, value, nilUpdater⟩).map fun r => (r.1, r.2.success)

/-- m.Find(key): note the method returns only the value field of the reply,
discarding the success flag (safemap.go line 104). -/
def Find (st : SafeMapState) (key : GoValue) : Except GoPanic (SafeMapState × GoValue) :=
  (sendJob st ⟨.findJob, key, .str "", nilUpdater⟩).map fun r => (r.1, r.2.value)

/-- m.Delete(key): returns the success flag of the reply. -/
def Delete (st : SafeMapState) (key : GoValue) : Except GoPanic (SafeMapState × Bool) :=
  (sendJob st ⟨.removeJob, key, .str "", nilUpdater⟩).map fun r => (r.1, r.2.success)

/-- m.Finish(key): sends a finish job (the key argument is unused by the
worker) and returns the success flag. -/
def Finish (st : SafeMapState) (key : GoValue) : Except GoPanic (SafeMapState × Bool) :=
  (sendJob st ⟨.finishJob, key, .str "", nilUpdater⟩).map fun r => (r.1, r.2.success)

/-- m.Do(fn): returns the reply value together with the success flag. -/
def Do (st : SafeMapState) (fn : Updater) : Except GoPanic (SafeMapState × (GoValue × Bool)) :=
  (sendJob st ⟨.doJob, .str "", .str "", fn⟩).map fun r => (r.1, (r.2.value, r.2.success))

/-- The worker loop run over a queue of jobs: replies emitted in order; an
uncaught panic kills the worker, so later jobs get no reply. -/
def workerRun : SafeMapState → List Job → List ReturnData × Option GoPanic
  | _, [] => ([], none)
  | st, j :: rest =>
    match runJob st j with
    | .ok (st', r) =>
      let out := workerRun st' rest
      (r :: out.1, out.2)
    | .error p => ([], some p)

/-!
Interleaving semantics for concurrent clients of one safeMap.

Each client owns one job.  A client not yet scheduled sits in pending; the
scheduler may let any pending client send, which (rendezvous on the
unbuffered job channel) appends the job to the FIFO queue the worker
drains.  The worker dequeues the head and executes its whole switch case
atomically before dequeuing the next, emitting the reply to that client.
-/

/-- Global state of one safeMap with concurrent clients: clients that have
not yet sent, the FIFO of sent-but-unprocessed jobs, the worker state, and
the replies delivered so far (client id paired with reply). -/
structure SysState where
  pending : List (Nat × Job)
  queued : List (Nat × Job)
  worker : SafeMapState
  replies : List (Nat × ReturnData)

/-- One scheduler step: either an arbitrary pending client sends its job
(nondeterministic choice of sender, FIFO enqueue), or the worker
atomically executes the job at the head of the queue. -/
inductive SysStep : SysState → SysState → Prop
  | send (l1 l2 : List (Nat × Job)) (c : Nat × Job) (q : List (Nat × Job))
      (w : SafeMapState) (r : List (Nat × ReturnData)) :
      SysStep ⟨l1 ++ c :: l2, q, w, r⟩ ⟨l1 ++ l2, q ++ [c], w, r⟩
  | work (p : List (Nat × Job)) (c : Nat × Job) (q : List (Nat × Job))
      (w w' : SafeMapState) (rd : ReturnData) (r : List (Nat × ReturnData)) :
      runJob w c.2 = .ok (w', rd) →
      SysStep ⟨p, c :: q, w, r⟩ ⟨p, q, w', r ++ [(c.1, rd)]⟩

/-- Fully sequential execution of a list of operations against the worker
state: each job runs to completion before the next starts; if a job
panics the worker dies and no further replies are produced. -/
def seqRun (w0 : SafeMapState) : List (Nat × Job) → SafeMapState × List (Nat × ReturnData)
  | [] => (w0, [])
  | c :: rest =>
    match runJob w0 c.2 with
    | .ok (w1, rd) =>
      let out := seqRun w1 rest
      (out.1, (c.1, rd) :: out.2)
    | .error _ => (w0, [])

/-- The operations the serializability claim quantifies over: Insert,
Delete and Find jobs. -/
def simpleJob (j : Job) : Prop :=
  j.jobType = .insertJob ∨ j.jobType = .removeJob ∨ j.jobType = .findJob

/-!
The windowed cache (urls.go makeurl, server.go getResponse).

Durations are int64 nanosecond counts (Go time.Duration); arithmetic on
them wraps at 2^64 into the signed range, modelled by int64Mul.  A route's
readiness signal is the unbuffered timeout channel: a goroutine parked on
a send makes a token receivable.  The seed token from makeurl is
timeoutReady; each rearm goroutine spawned by getResponse becomes
receivable once its timer has fired, so it is recorded by its absolute
fire time in pendingFires.
-/

/-- TIMEOUT = time.Second, in nanoseconds (wedge.go). -/
def TIMEOUT : Int := 1000000000

/-- Go int64 multiplication with two's-complement wrap-around: the
mathematical product reduced to the interval from -2^63 to 2^63 - 1. -/
def int64Mul (a b : Int) : Int := Int.bmod (a * b) (2 ^ 64)

/-- Per-route cache state (fields of the url struct that the cache uses). -/
structure RouteState where
  cache_duration : Int
  timeoutReady : Bool
  pendingFires : List Int
deriving DecidableEq, Repr

/-- makeurl (urls.go): a negative duration is normalized to
30 * 12 * 30 * time.Hour; afterwards, iff the (normalized) duration is
positive, a goroutine seeds the timeout channel with one token. -/
def makeurl (duration : Int) : RouteState :=
  let d := if duration < 0 then 30 * 12 * 30 * 3600 * 1000000000 else duration
  { cache_duration := d, timeoutReady := decide (0 < d), pendingFires := [] }

/-- The select's attempt to receive from route.timeout at time t: take the
seed token if still present, else take any rearm send whose timer has
fired; none means the select falls to its default branch. -/
def takeToken (r : RouteState) (t : Int) : Option RouteState :=
  if r.timeoutReady then some { r with timeoutReady := false }
  else
    match r.pendingFires.find? (fun f => decide (f ≤ t)) with
    | some f => some { r with pendingFires := r.pendingFires.erase f }
    | none => none

/-- Server-side state for a single route: the route's signal state, the
cache_map contents, and how many times the route's handler has run. -/
structure ServerState where
  route : RouteState
  cache : GoMap
  calls : Nat
deriving Repr

/-- The type assertion resp, ok := cache_map.Find(path).(string): the
exposed Find yields the stored value (nil when absent), and the assertion
succeeds only on a string. -/
def findCachedString (cache : GoMap) (path : String) : Option String :=
  match mapFind cache (.str path) with
  | some (GoValue.str s) => some s
  | _ => none

/-- getResponse (server.go): the handler is the route's producer, modelled
as a function of how many times it has been invoked so far; now is the
request's arrival time.  Returns (response body, status, new state).
cache_duration == 0 short-circuits to the handler.  Otherwise the select:
if a token is obtainable, consume it, arm a rearm goroutine whose timer
lasts cache_duration * TIMEOUT (an int64 product of two Durations), run
the handler and insert its output into cache_map unconditionally; in the
default branch, serve the cached string under the request path if the
type assertion holds (status keeps the int zero value 0), else run the
handler, inserting its output unless the status is 404. -/
def getResponse (s : ServerState) (handler : Nat → String × Int) (path : String)
    (now : Int) : String × Int × ServerState :=
  if s.route.cache_duration = 0 then
    let out := handler s.calls
    (out.1, out.2, { s with calls := s.calls + 1 })
  else
    match takeToken s.route now with
    | some r1 =>
      let fire := now + int64Mul s.route.cache_duration TIMEOUT
      let r2 := { r1 with pendingFires := r1.pendingFires ++ [fire] }
      let out := handler s.calls
      (out.1, out.2,
        { route := r2, cache := mapInsert s.cache (.str path) (.str out.1),
          calls := s.calls + 1 })
    | none =>
      match findCachedString s.cache path with
      | some resp =>
        (resp, 0, { s with cache := mapInsert s.cache (.str path) (.str resp) })
      | none =>
        let out := handler s.calls
        if out.2 ≠ 404 then
          (out.1, out.2,
            { route := s.route, cache := mapInsert s.cache (.str path) (.str out.1),
              calls := s.calls + 1 })
        else (out.1, out.2, { s with calls := s.calls + 1 })

/-- A sequence of requests to one route at the given arrival times:
returns the final state and the (body, status) answers in order. -/
def serveSeq (handler : Nat → String × Int) (path : String) :
    List Int → ServerState → ServerState × List (String × Int)
  | [], s => (s, [])
  | t :: ts, s =>
    let out := getResponse s handler path t
    let rest := serveSeq handler path ts out.2.2
    (rest.1, (out.1, out.2.1) :: rest.2)

/-- What ServeHTTP does with the pair from getResponse for an HTML route:
only a status of exactly 404 diverts to the 404 handler; any other status
writes the body to the client. -/
inductive ServeOutcome where
  | body (resp : String)
  | handled404
deriving DecidableEq, Repr

/-- The status dispatch of ServeHTTP (server.go lines 144-153). -/
def serveHTTPdispatch (resp : String) (status : Int) : ServeOutcome :=
  if status = 404 then .handled404 else .body resp

/-!
Helper lemmas.
-/

theorem mapFind_mapInsert_self (m : GoMap) (k v : GoValue) :
    mapFind (mapInsert m k v) k = some v := by
  induction m with
  | nil => simp [mapInsert, mapFind]
  | cons p rest ih =>
    by_cases h : p.1 = k
    · simp [mapInsert, mapFind, h]
    · simp [mapInsert, mapFind, h, ih]

theorem mapFind_mapDelete_self (m : GoMap) (k : GoValue) :
    mapFind (mapDelete m k) k = none := by
  induction m with
  | nil => simp [mapDelete, mapFind]
  | cons p rest ih =>
    by_cases h : p.1 = k
    · simp [mapDelete, h, ih]
    · simp [mapDelete, mapFind, h, ih]

theorem mapDelete_absent (m : GoMap) (k : GoValue) (h : mapFind m k = none) :
    mapDelete m k = m := by
  induction m with
  | nil => rfl
  | cons p rest ih =>
    by_cases hp : p.1 = k
    · simp [mapFind, hp] at h
    · simp [mapFind, hp] at h
      simp [mapDelete, hp, ih h]

/-- C2 counterexample: after a first Finish on a fresh safeMap completes
with success=true, an Insert does not return success=false: it panics
with the Go send-on-closed-channel runtime panic, because Finish closed
the job channel that every operation sends on. -/
theorem post_close_insert_panics_cex :
    Finish NewSafeMap GoValue.nil = .ok (⟨[], false⟩, true)
    ∧ Insert ⟨[], false⟩ (.str "k") (.str "v") = .error closedChannelPanic
    ∧ Finish ⟨[], false⟩ GoValue.nil = .error closedChannelPanic :=
  ⟨rfl, rfl, rfl⟩

/-- C2 (amended): a first Finish on an open safeMap does complete with
success=true and is terminal, but every operation issued against the
closed map — Insert, Delete, Find, Do or a second Finish — panics with
send-on-closed-channel instead of returning success=false. -/
theorem close_terminal_ops_panic (st st' : SafeMapState) (k v : GoValue) (fn : Updater)
    (hOpen : st.isOpen = true) (hClosed : st'.isOpen = false) :
    Finish st k = .ok ({ st with isOpen := false }, true)
    ∧ Insert st' k v = .error closedChannelPanic
    ∧ Delete st' k = .error closedChannelPanic
    ∧ Find st' k = .error closedChannelPanic
    ∧ Do st' fn = .error closedChannelPanic
    ∧ Finish st' k = .error closedChannelPanic := by
  refine ⟨?_, ?_, ?_, ?_, ?_, ?_⟩ <;>
    simp [Finish, Insert, Delete, Find, Do, sendJob, runJob, hOpen, hClosed, Except.map]

theorem close_terminal_ops_panic_witness :
    Finish NewSafeMap GoValue.nil = .ok ({ NewSafeMap with isOpen := false }, true)
    ∧ Insert ⟨[], false⟩ GoValue.nil (.str "v") = .error closedChannelPanic
    ∧ Delete ⟨[], false⟩ GoValue.nil = .error closedChannelPanic
    ∧ Find ⟨[], false⟩ GoValue.nil = .error closedChannelPanic
    ∧ Do ⟨[], false⟩ nilUpdater = .error closedChannelPanic
    ∧ Finish ⟨[], false⟩ GoValue.nil = .error closedChannelPanic :=
  close_terminal_ops_panic NewSafeMap ⟨[], false⟩ GoValue.nil (.str "v") nilUpdater rfl rfl

/-- C3 counterexample: a Do whose transformation panics does not come back
as success=false; the panic escapes (there is no recover in the worker
loop), and the worker does not survive to serve the next job: a
subsequent Insert in the queue receives no reply at all. -/
theorem do_panic_kills_worker_cex :
    Do NewSafeMap (fun _ => .error ⟨"boom"⟩) = .error ⟨"boom"⟩
    ∧ workerRun NewSafeMap
        [⟨.doJob, .str "", .str "", fun _ => .error ⟨"boom"⟩⟩,
         ⟨.insertJob, .str "k", .str "v", nilUpdater⟩]
      = ([], some ⟨"boom"⟩) :=
  ⟨rfl, rfl⟩

/-- C3 (amended): a panic in the caller-supplied transformation of a Do
job propagates uncaught out of the worker switch, and the worker loop
dies with it: no reply is emitted for the panicking job and every job
queued behind it is never served. -/
theorem do_panic_propagates (st : SafeMapState) (p : GoPanic) (rest : List Job) :
    runJob st ⟨.doJob, .str "", .str "", fun _ => .error p⟩ = .error p
    ∧ workerRun st (⟨.doJob, .str "", .str "", fun _ => .error p⟩ :: rest)
      = ([], some p) := by
  exact ⟨rfl, rfl⟩

/-- C7 counterexample: the exposed Find returns only the value field of
the reply envelope; for a key stored with value nil and for an absent key
it returns the same nil, so a caller cannot distinguish the two. -/
theorem find_discards_found_flag_cex :
    Find ⟨[(GoValue.str "k", GoValue.nil)], true⟩ (.str "k")
      = .ok (⟨[(GoValue.str "k", GoValue.nil)], true⟩, GoValue.nil)
    ∧ Find ⟨[], true⟩ (.str "k") = .ok (⟨[], true⟩, GoValue.nil) :=
  ⟨rfl, rfl⟩

/-- C7 (amended): the worker's reply envelope for a find job does carry
both the value and the found flag, but the Find method as exposed to
callers projects out only the value (nil when absent), discarding the
flag, so absent keys and keys bound to nil are indistinguishable. -/
theorem find_envelope_vs_exposed (st : SafeMapState) (k : GoValue)
    (hOpen : st.isOpen = true) :
    sendJob st ⟨.findJob, k, .str "", nilUpdater⟩
      = .ok (st, ⟨(mapFind st.safe k).getD GoValue.nil, (mapFind st.safe k).isSome⟩)
    ∧ Find st k = .ok (st, (mapFind st.safe k).getD GoValue.nil) := by
  have h1 : sendJob st ⟨.findJob, k, .str "", nilUpdater⟩
      = .ok (st, ⟨(mapFind st.safe k).getD GoValue.nil, (mapFind st.safe k).isSome⟩) := by
    cases hf : mapFind st.safe k <;> simp [sendJob, hOpen, runJob, hf]
  exact ⟨h1, by simp [Find, h1, Except.map]⟩

theorem find_envelope_vs_exposed_witness :
    sendJob ⟨[], true⟩ ⟨.findJob, .str "k", .str "", nilUpdater⟩
      = .ok (⟨[], true⟩,
          ⟨(mapFind [] (.str "k")).getD GoValue.nil, (mapFind [] (.str "k")).isSome⟩)
    ∧ Find ⟨[], true⟩ (.str "k")
      = .ok (⟨[], true⟩, (mapFind [] (.str "k")).getD GoValue.nil) :=
  find_envelope_vs_exposed ⟨[], true⟩ (.str "k") rfl

/-- C8: on a non-closed map, Insert(k,v) succeeds and a Find(k) right
after replies with envelope (v, true); a find on a key absent from the
map (never inserted) replies with found=false, as does a find right
after Delete(k); Delete always replies success=true, and deleting a key
absent from the map leaves the state unchanged. -/
theorem insert_find_delete_semantics (st stA : SafeMapState) (k v : GoValue)
    (hOpen : st.isOpen = true) (hOpenA : stA.isOpen = true)
    (hAbsent : mapFind stA.safe k = none) :
    Insert st k v = .ok ({ st with safe := mapInsert st.safe k v }, true)
    ∧ sendJob { st with safe := mapInsert st.safe k v } ⟨.findJob, k, .str "", nilUpdater⟩
        = .ok ({ st with safe := mapInsert st.safe k v }, ⟨v, true⟩)
    ∧ sendJob stA ⟨.findJob, k, .str "", nilUpdater⟩ = .ok (stA, ⟨GoValue.nil, false⟩)
    ∧ Delete st k = .ok ({ st with safe := mapDelete st.safe k }, true)
    ∧ sendJob { st with safe := mapDelete st.safe k } ⟨.findJob, k, .str "", nilUpdater⟩
        = .ok ({ st with safe := mapDelete st.safe k }, ⟨GoValue.nil, false⟩)
    ∧ Delete stA k = .ok (stA, true) := by
  refine ⟨?_, ?_, ?_, ?_, ?_, ?_⟩
  · simp [Insert, sendJob, hOpen, runJob, Except.map]
  · simp [sendJob, hOpen, runJob, mapFind_mapInsert_self]
  · simp [sendJob, hOpenA, runJob, hAbsent]
  · simp [Delete, sendJob, hOpen, runJob, Except.map]
  · simp [sendJob, hOpen, runJob, mapFind_mapDelete_self]
  · have hd : mapDelete stA.safe k = stA.safe := mapDelete_absent _ _ hAbsent
    cases stA with
    | mk safe op =>
      simp only at hOpenA hd
      subst hOpenA
      simp [Delete, sendJob, runJob, Except.map, hd]

theorem runJob_simple (st : SafeMapState) (j : Job) (h : simpleJob j) :
    ∃ q, runJob st j = .ok q := by
  rcases h with h | h | h
  · exact ⟨({ st with safe := mapInsert st.safe j.key j.value }, ⟨GoValue.nil, true⟩),
      by simp [runJob, h]⟩
  · exact ⟨({ st with safe := mapDelete st.safe j.key }, ⟨GoValue.nil, true⟩),
      by simp [runJob, h]⟩
  · cases hf : mapFind st.safe j.key with
    | none => exact ⟨(st, ⟨GoValue.nil, false⟩), by simp [runJob, h, hf]⟩
    | some v => exact ⟨(st, ⟨v, true⟩), by simp [runJob, h, hf]⟩

theorem seqRun_append_singleton (l : List (Nat × Job)) (w0 w : SafeMapState)
    (rs : List (Nat × ReturnData)) (c : Nat × Job) (w' : SafeMapState) (rd : ReturnData)
    (hsimple : ∀ x ∈ l, simpleJob x.2)
    (hrun : seqRun w0 l = (w, rs))
    (hj : runJob w c.2 = .ok (w', rd)) :
    seqRun w0 (l ++ [c]) = (w', rs ++ [(c.1, rd)]) := by
  induction l generalizing w0 rs with
  | nil =>
    simp [seqRun] at hrun
    obtain ⟨rfl, rfl⟩ := hrun
    simp [seqRun, hj]
  | cons a l ih =>
    obtain ⟨⟨w1, rd1⟩, ha⟩ := runJob_simple w0 a.2 (hsimple a (List.mem_cons_self a l))
    rcases hsr : seqRun w1 l with ⟨wL, rsL⟩
    rw [seqRun, ha] at hrun
    simp [hsr] at hrun
    obtain ⟨rfl, rfl⟩ := hrun
    have ihl := ih w1 rsL (fun x hx => hsimple x (List.mem_cons_of_mem a hx)) hsr
    rw [List.cons_append, seqRun, ha]
    simp [ihl]

theorem sysStep_preserves (ops0 : List (Nat × Job)) (w0 : SafeMapState)
    (hsimple : ∀ x ∈ ops0, simpleJob x.2)
    (s s' : SysState) (hstep : SysStep s s')
    (done : List (Nat × Job))
    (hperm : (done ++ s.queued ++ s.pending).Perm ops0)
    (hrun : seqRun w0 done = (s.worker, s.replies)) :
    ∃ done', (done' ++ s'.queued ++ s'.pending).Perm ops0
      ∧ seqRun w0 done' = (s'.worker, s'.replies) := by
  cases hstep with
  | send l1 l2 c q w r =>
    refine ⟨done, ?_, hrun⟩
    refine List.Perm.trans ?_ hperm
    simp only [List.append_assoc]
    exact List.Perm.append_left done
      (List.Perm.append_left q (List.Perm.symm List.perm_middle))
  | work p c q w w' rd r hj =>
    refine ⟨done ++ [c], ?_, ?_⟩
    · simpa [List.append_assoc] using hperm
    · have hd : ∀ x ∈ done, simpleJob x.2 := by
        intro x hx
        exact hsimple x (hperm.subset (by simp [hx]))
      exact seqRun_append_singleton done w0 w r c w' rd hd hrun hj

/-- C9: serializability of the actor map.  For any interleaving of
scheduler steps that starts with the clients of an open safeMap each
holding one Insert/Delete/Find operation and runs until every operation
has been sent and processed, there is a total order of the operations
(the FIFO order in which the worker dequeued them) whose fully
sequential execution produces exactly the final mapping and exactly the
replies each client observed: at most one operation touches the map at
a time, so no update is lost and no read is torn. -/
theorem actor_map_serializable (ops0 : List (Nat × Job)) (w0 : SafeMapState)
    (final : SysState)
    (hsimple : ∀ x ∈ ops0, simpleJob x.2)
    (hreach : Relation.ReflTransGen SysStep ⟨ops0, [], w0, []⟩ final)
    (hp : final.pending = []) (hq : final.queued = []) :
    ∃ order, order.Perm ops0 ∧ seqRun w0 order = (final.worker, final.replies) := by
  have key : ∀ s : SysState, Relation.ReflTransGen SysStep ⟨ops0, [], w0, []⟩ s →
      ∃ done, (done ++ s.queued ++ s.pending).Perm ops0
        ∧ seqRun w0 done = (s.worker, s.replies) := by
    intro s hs
    induction hs with
    | refl => exact ⟨[], by simp, by simp [seqRun]⟩
    | tail hab hbc ih =>
      obtain ⟨done, h1, h2⟩ := ih
      exact sysStep_preserves ops0 w0 hsimple _ _ hbc done h1 h2
  obtain ⟨done, h1, h2⟩ := key final hreach
  exact ⟨done, by simpa [hp, hq] using h1, h2⟩

theorem actor_map_serializable_witness :
    ∃ order,
      order.Perm [(0, ⟨.insertJob, .str "k", .str "v", nilUpdater⟩),
                  (1, ⟨.findJob, .str "k", .str "", nilUpdater⟩)]
      ∧ seqRun NewSafeMap order
        = (⟨[(GoValue.str "k", GoValue.str "v")], true⟩,
           [(0, ⟨GoValue.nil, true⟩), (1, ⟨GoValue.str "v", true⟩)]) := by
  have h1 : SysStep
      ⟨[(0, ⟨.insertJob, .str "k", .str "v", nilUpdater⟩),
        (1, ⟨.findJob, .str "k", .str "", nilUpdater⟩)], [], NewSafeMap, []⟩
      ⟨[(1, ⟨.findJob, .str "k", .str "", nilUpdater⟩)],
        [(0, ⟨.insertJob, .str "k", .str "v", nilUpdater⟩)], NewSafeMap, []⟩ :=
    SysStep.send [] [(1, ⟨.findJob, .str "k", .str "", nilUpdater⟩)]
      (0, ⟨.insertJob, .str "k", .str "v", nilUpdater⟩) [] NewSafeMap []
  have h2 : SysStep
      ⟨[(1, ⟨.findJob, .str "k", .str "", nilUpdater⟩)],
        [(0, ⟨.insertJob, .str "k", .str "v", nilUpdater⟩)], NewSafeMap, []⟩
      ⟨[], [(0, ⟨.insertJob, .str "k", .str "v", nilUpdater⟩),
        (1, ⟨.findJob, .str "k", .str "", nilUpdater⟩)], NewSafeMap, []⟩ :=
    SysStep.send [] [] (1, ⟨.findJob, .str "k", .str "", nilUpdater⟩)
      [(0, ⟨.insertJob, .str "k", .str "v", nilUpdater⟩)] NewSafeMap []
  have h3 : SysStep
      ⟨[], [(0, ⟨.insertJob, .str "k", .str "v", nilUpdater⟩),
        (1, ⟨.findJob, .str "k", .str "", nilUpdater⟩)], NewSafeMap, []⟩
      ⟨[], [(1, ⟨.findJob, .str "k", .str "", nilUpdater⟩)],
        ⟨[(GoValue.str "k", GoValue.str "v")], true⟩, [(0, ⟨GoValue.nil, true⟩)]⟩ :=
    SysStep.work [] (0, ⟨.insertJob, .str "k", .str "v", nilUpdater⟩)
      [(1, ⟨.findJob, .str "k", .str "", nilUpdater⟩)] NewSafeMap
      ⟨[(GoValue.str "k", GoValue.str "v")], true⟩ ⟨GoValue.nil, true⟩ [] rfl
  have h4 : SysStep
      ⟨[], [(1, ⟨.findJob, .str "k", .str "", nilUpdater⟩)],
        ⟨[(GoValue.str "k", GoValue.str "v")], true⟩, [(0, ⟨GoValue.nil, true⟩)]⟩
      ⟨[], [], ⟨[(GoValue.str "k", GoValue.str "v")], true⟩,
        [(0, ⟨GoValue.nil, true⟩), (1, ⟨GoValue.str "v", true⟩)]⟩ :=
    SysStep.work [] (1, ⟨.findJob, .str "k", .str "", nilUpdater⟩) []
      ⟨[(GoValue.str "k", GoValue.str "v")], true⟩
      ⟨[(GoValue.str "k", GoValue.str "v")], true⟩ ⟨GoValue.str "v", true⟩
      [(0, ⟨GoValue.nil, true⟩)] rfl
  have hreach := (((Relation.ReflTransGen.refl.tail h1).tail h2).tail h3).tail h4
  exact actor_map_serializable _ NewSafeMap _
    (by
      intro x hx
      rcases List.mem_cons.mp hx with h | hx2
      · subst h; exact Or.inl rfl
      · rcases List.mem_cons.mp hx2 with h | h
        · subst h; exact Or.inr (Or.inr rfl)
        · exact absurd h (List.not_mem_nil x))
    hreach rfl rfl

theorem insert_find_delete_semantics_witness :
    Insert ⟨[(GoValue.str "b", GoValue.str "2")], true⟩ (.str "a") (.str "1")
      = .ok (⟨mapInsert [(GoValue.str "b", GoValue.str "2")] (.str "a") (.str "1"), true⟩, true)
    ∧ sendJob ⟨mapInsert [(GoValue.str "b", GoValue.str "2")] (.str "a") (.str "1"), true⟩
        ⟨.findJob, .str "a", .str "", nilUpdater⟩
      = .ok (⟨mapInsert [(GoValue.str "b", GoValue.str "2")] (.str "a") (.str "1"), true⟩,
          ⟨.str "1", true⟩)
    ∧ sendJob NewSafeMap ⟨.findJob, .str "a", .str "", nilUpdater⟩
      = .ok (NewSafeMap, ⟨GoValue.nil, false⟩)
    ∧ Delete ⟨[(GoValue.str "b", GoValue.str "2")], true⟩ (.str "a")
      = .ok (⟨mapDelete [(GoValue.str "b", GoValue.str "2")] (.str "a"), true⟩, true)
    ∧ sendJob ⟨mapDelete [(GoValue.str "b", GoValue.str "2")] (.str "a"), true⟩
        ⟨.findJob, .str "a", .str "", nilUpdater⟩
      = .ok (⟨mapDelete [(GoValue.str "b", GoValue.str "2")] (.str "a"), true⟩,
          ⟨GoValue.nil, false⟩)
    ∧ Delete NewSafeMap (.str "a") = .ok (NewSafeMap, true) :=
  insert_find_delete_semantics ⟨[(GoValue.str "b", GoValue.str "2")], true⟩ NewSafeMap
    (.str "a") (.str "1") rfl rfl rfl

/-- C6 counterexample: on a TTL=0 route the handler output is returned
directly and nothing is written through to the cache map: after the
request the cache still has no entry under the request path. -/
theorem ttl_zero_no_writethrough_cex :
    getResponse ⟨makeurl 0, [], 0⟩ (fun _ => ("hello", 200)) "/" 0
      = ("hello", 200, ⟨makeurl 0, [], 1⟩)
    ∧ mapFind (getResponse ⟨makeurl 0, [], 0⟩ (fun _ => ("hello", 200)) "/" 0).2.2.cache
        (.str "/") = none :=
  ⟨rfl, rfl⟩

/-- C6 (amended): on a route with TTL = 0 every request synchronously
invokes the producer (N sequential requests give exactly N invocations,
and the n-th answer is the n-th handler output verbatim), the cache map
and the readiness signal are left completely untouched — in particular
the produced result is NOT written through to the ActorMap. -/
theorem ttl_zero_passthrough (s : ServerState) (handler : Nat → String × Int)
    (path : String) (ts : List Int) (h : s.route.cache_duration = 0) :
    serveSeq handler path ts s =
      ({ s with calls := s.calls + ts.length },
       (List.range ts.length).map (fun i => handler (s.calls + i))) := by
  induction ts generalizing s with
  | nil => simp [serveSeq]
  | cons t ts ih =>
    have ih2 := ih { s with calls := s.calls + 1 } h
    simp only [serveSeq, getResponse, h, if_pos, ih2, List.length_cons,
      List.range_succ_eq_map, List.map_cons, List.map_map, Prod.mk.injEq]
    refine ⟨by congr 1; omega, ?_⟩
    congr 1
    refine List.map_congr_left ?_
    intro a ha
    simp only [Function.comp_apply, Nat.succ_eq_add_one]
    congr 1
    omega

theorem ttl_zero_passthrough_witness :
    serveSeq (fun _ => ("A", 200)) "/" [0, 1, 2] ⟨makeurl 0, [], 0⟩ =
      ({ (⟨makeurl 0, [], 0⟩ : ServerState) with calls := 0 + ([0, 1, 2] : List Int).length },
       (List.range ([0, 1, 2] : List Int).length).map (fun i => (fun _ => ("A", 200)) (0 + i))) :=
  ttl_zero_passthrough ⟨makeurl 0, [], 0⟩ (fun _ => ("A", 200)) "/" [0, 1, 2] rfl

/-- C10: on a route with nonzero TTL, when no readiness token is
obtainable and the cache holds a string under the request path,
getResponse returns the cached string with status 0 — the int zero
value, not http.StatusOK = 200 — (re-inserting the cached string), and
ServeHTTP still writes the body to the client since only a status of
exactly 404 diverts to the 404 handler. -/
theorem cached_hit_status_zero (s : ServerState) (handler : Nat → String × Int)
    (path v : String) (now : Int)
    (hdur : s.route.cache_duration ≠ 0)
    (htok : takeToken s.route now = none)
    (hfind : mapFind s.cache (.str path) = some (.str v)) :
    getResponse s handler path now
      = (v, 0, { s with cache := mapInsert s.cache (.str path) (.str v) })
    ∧ (0 : Int) ≠ 200
    ∧ serveHTTPdispatch v 0 = .body v := by
  refine ⟨?_, by decide, by simp [serveHTTPdispatch]⟩
  simp [getResponse, hdur, htok, findCachedString, hfind]

theorem cached_hit_status_zero_witness :
    getResponse ⟨⟨100, false, []⟩, [(.str "/", .str "hi")], 0⟩ (fun _ => ("X", 200)) "/" 5
      = ("hi", 0,
        { (⟨⟨100, false, []⟩, [(.str "/", .str "hi")], 0⟩ : ServerState) with
            cache := mapInsert [(.str "/", .str "hi")] (.str "/") (.str "hi") })
    ∧ (0 : Int) ≠ 200
    ∧ serveHTTPdispatch "hi" 0 = .body "hi" :=
  cached_hit_status_zero ⟨⟨100, false, []⟩, [(.str "/", .str "hi")], 0⟩
    (fun _ => ("X", 200)) "/" "hi" 5 (by decide) rfl rfl

/-- C5 counterexample: for a route with TTL = 100ms (100000000 ns), the
rearm timer armed by a stale request at t=0 fires at 10^17 ns — the
int64 product cache_duration * time.Second — which is not the configured
TTL of 10^8 ns. -/
theorem rearm_timer_not_ttl_cex :
    ((getResponse ⟨makeurl 100000000, [], 0⟩ (fun _ => ("R1", 200)) "/" 0).2.2).route.pendingFires
      = [100000000000000000]
    ∧ (100000000000000000 : Int) ≠ 100000000 :=
  ⟨rfl, by decide⟩

/-- C5 (amended): whenever a stale request consumes the readiness token,
the rearm timer is armed for cache_duration * TIMEOUT — the wrapping
int64 product of the TTL with time.Second — not for the TTL itself; for
TTL = 100ms that product is 10^17 ns, about 3.17 years. -/
theorem rearm_timer_duration_wrapped (s : ServerState) (handler : Nat → String × Int)
    (path : String) (now : Int) (r1 : RouteState)
    (hdur : s.route.cache_duration ≠ 0)
    (htok : takeToken s.route now = some r1) :
    ((getResponse s handler path now).2.2).route.pendingFires
      = r1.pendingFires ++ [now + int64Mul s.route.cache_duration TIMEOUT]
    ∧ int64Mul 100000000 TIMEOUT = 100000000000000000 := by
  refine ⟨?_, by decide⟩
  simp [getResponse, hdur, htok]

theorem rearm_timer_duration_wrapped_witness :
    ((getResponse ⟨makeurl 100000000, [], 0⟩ (fun _ => ("R1", 200)) "/" 0).2.2).route.pendingFires
      = ([] : List Int) ++ [0 + int64Mul (makeurl 100000000).cache_duration TIMEOUT]
    ∧ int64Mul 100000000 TIMEOUT = 100000000000000000 :=
  rearm_timer_duration_wrapped ⟨makeurl 100000000, [], 0⟩ (fun _ => ("R1", 200)) "/" 0
    ⟨100000000, false, []⟩ (by decide) rfl

/-- C4 counterexample: a route registered with TTL = -1 is normalized to
38880000000000000 ns (30*12*30 hours) and seeded with one token, but a
stale request still arms a rearm timer — its duration is the int64
overflow of 10800h * 1s, 430027188864024576 ns — so a second request
once that timer has fired invokes the producer a second time: two
producer invocations, not exactly one. -/
theorem cache_forever_second_invocation_cex :
    makeurl (-1) = ⟨38880000000000000, true, []⟩
    ∧ (serveSeq (fun _ => ("R", 200)) "/" [0, 430027188864024576]
        ⟨makeurl (-1), [], 0⟩).1.calls = 2 :=
  ⟨rfl, rfl⟩

/-- C4 (amended): TTL < 0 is normalized at registration to
30*12*30 hours and the readiness token is armed exactly once at
construction; a stale request still arms a rearm timer, of wrapped
duration 430027188864024576 ns (the int64 overflow of 10800h * 1s,
about 13.6 years), so the signal is eventually rearmed; but for any
second request strictly inside that wrapped window the producer is not
invoked again — exactly one invocation within the window. -/
theorem cache_forever_wrapped_timer (d : Int) (handler : Nat → String × Int)
    (path : String) (t2 : Int)
    (hneg : d < 0) (ht2 : t2 < 430027188864024576) :
    makeurl d = ⟨38880000000000000, true, []⟩
    ∧ int64Mul 38880000000000000 TIMEOUT = 430027188864024576
    ∧ ((getResponse ⟨makeurl d, [], 0⟩ handler path 0).2.2).route
        = ⟨38880000000000000, false, [430027188864024576]⟩
    ∧ (serveSeq handler path [0, t2] ⟨makeurl d, [], 0⟩).1.calls = 1 := by
  have hMul : int64Mul 38880000000000000 TIMEOUT = 430027188864024576 := by decide
  have hmk : makeurl d = ⟨38880000000000000, true, []⟩ := by
    simp [makeurl, hneg]
  have hg1 : getResponse ⟨⟨38880000000000000, true, []⟩, [], 0⟩ handler path 0
      = ((handler 0).1, (handler 0).2,
        ⟨⟨38880000000000000, false, [430027188864024576]⟩,
          mapInsert [] (.str path) (.str (handler 0).1), 1⟩) := by
    simp [getResponse, takeToken, hMul]
  have htk2 : takeToken ⟨38880000000000000, false, [430027188864024576]⟩ t2 = none := by
    have hle : ¬ ((430027188864024576 : Int) ≤ t2) := by omega
    simp [takeToken, List.find?, hle]
  have hfind2 : findCachedString (mapInsert [] (.str path) (.str (handler 0).1)) path
      = some (handler 0).1 := by
    simp [findCachedString, mapInsert, mapFind]
  refine ⟨hmk, hMul, ?_, ?_⟩
  · rw [hmk, hg1]
  · rw [hmk]
    simp only [serveSeq, hg1]
    simp [getResponse, htk2, hfind2]

theorem cache_forever_wrapped_timer_witness :
    makeurl (-5) = ⟨38880000000000000, true, []⟩
    ∧ int64Mul 38880000000000000 TIMEOUT = 430027188864024576
    ∧ ((getResponse ⟨makeurl (-5), [], 0⟩ (fun _ => ("R1", 200)) "/x" 0).2.2).route
        = ⟨38880000000000000, false, [430027188864024576]⟩
    ∧ (serveSeq (fun _ => ("R1", 200)) "/x" [0, 1000] ⟨makeurl (-5), [], 0⟩).1.calls = 1 :=
  cache_forever_wrapped_timer (-5) (fun _ => ("R1", 200)) "/x" 1000 (by decide) (by decide)

/-- C1 counterexample: on a 100ms-TTL route whose producer fails with
status 500, the stale request at t=0 writes the failed body into the
cache map and a second request at t=1 — inside the same window — serves
that cached failed body with status 0 without attempting production
again (the handler ran exactly once). -/
theorem failed_production_cached_cex :
    serveSeq (fun _ => ("boom", 500)) "/" [0, 1] ⟨makeurl 100000000, [], 0⟩
      = (⟨⟨100000000, false, [100000000000000000]⟩, [(.str "/", .str "boom")], 1⟩,
         [("boom", 500), ("boom", 0)]) :=
  rfl

/-- C1 (amended): when a stale request's producer returns any status —
success or failure — the status is propagated to the requester
unchanged and the rearm timer is still armed, but the produced body is
unconditionally written into the ActorMap cache, failed results
included. -/
theorem stale_failure_propagates_and_caches (s : ServerState)
    (handler : Nat → String × Int) (path : String) (now : Int) (r1 : RouteState)
    (b : String) (code : Int)
    (hdur : s.route.cache_duration ≠ 0)
    (htok : takeToken s.route now = some r1)
    (hh : handler s.calls = (b, code)) :
    getResponse s handler path now
      = (b, code,
        ⟨{ r1 with pendingFires :=
            r1.pendingFires ++ [now + int64Mul s.route.cache_duration TIMEOUT] },
          mapInsert s.cache (.str path) (.str b), s.calls + 1⟩) := by
  simp [getResponse, hdur, htok, hh]

theorem stale_failure_propagates_and_caches_witness :
    getResponse ⟨makeurl 100000000, [], 0⟩ (fun _ => ("boom", 500)) "/" 0
      = ("boom", 500,
        ⟨{ (⟨100000000, false, []⟩ : RouteState) with pendingFires :=
            ([] : List Int) ++ [0 + int64Mul (makeurl 100000000).cache_duration TIMEOUT] },
          mapInsert [] (.str "/") (.str "boom"), 0 + 1⟩) :=
  stale_failure_propagates_and_caches ⟨makeurl 100000000, [], 0⟩ (fun _ => ("boom", 500))
    "/" 0 ⟨100000000, false, []⟩ "boom" 500 (by decide) rfl rfl

end Wedge
